import Mathlib

/-!
Shallow embedding of the playback-position engine of OpenBinaryWaterFall
(src/OpenBinaryWaterFall.cpp, the "main" variant, and
src/burn/OPENBinarywaterFALL.cpp, the "burn" variant).

Doubles are modelled as exact rationals; the C cast from double to an
integer type truncates toward zero, as does C fmod, which is modelled by
ratTrunc below.
-/

namespace OBWF

/-- Truncation toward zero of a rational, the rounding used by the C
double-to-integer conversion and by C fmod. -/
def ratTrunc (q : ℚ) : ℤ :=
  if 0 ≤ q then ⌊q⌋ else ⌈q⌉

/-- C fmod on rationals: x - y * trunc (x / y). -/
def fmod (x y : ℚ) : ℚ :=
  x - y * (ratTrunc (x / y) : ℚ)

/-- Embeds wrapPosition from both variants: wrap a position into
[0, fileSize). -/
def wrapPosition (pos fileSize : ℚ) : ℚ :=
  if pos < 0 then
    (if fmod pos fileSize < 0 then fmod pos fileSize + fileSize
     else fmod pos fileSize)
  else if fileSize ≤ pos then
    fmod pos fileSize
  else pos

/-- The mutable playback session state shared by the audio, render and
input contexts.  rate is the signed per-sample advance (the effective
advance derived from playbackMultiplier / playbackFrequency); muted
models the negation of isAudioEnabled. -/
structure PlaybackState where
  position : ℚ
  rate : ℚ
  loopEnabled : Bool
  boomerangMode : Bool
  loopStart : ℚ
  loopEnd : ℚ
  paused : Bool
  muted : Bool
  volume : ℚ
  deriving Repr, DecidableEq

/-- Embeds handleLoop: resolves loop/boomerang boundary crossings after
the unconditional position increment.  advance is the parameter the C
code receives (the per-sample advance whose sign classifies the step as
forward); a boomerang reflection negates the stored rate, exactly as the
C code negates playbackMultiplier / playbackFrequency. -/
def handleLoop (fileSize advance : ℚ) (s : PlaybackState) : PlaybackState :=
  if s.loopEnabled = false then
    { s with position := wrapPosition s.position fileSize }
  else if s.loopStart = s.loopEnd then
    { s with position := s.loopStart }
  else if s.loopStart < s.loopEnd then
    if 0 < advance then
      if s.loopEnd < s.position then
        if s.boomerangMode = true then
          { s with position := s.loopEnd - (s.position - s.loopEnd),
                   rate := -s.rate }
        else
          { s with position := s.loopStart }
      else s
    else
      if s.position < s.loopStart then
        if s.boomerangMode = true then
          { s with position := s.loopStart + (s.loopStart - s.position),
                   rate := -s.rate }
        else
          { s with position := s.loopEnd }
      else s
  else
    if 0 < advance then
      if s.loopEnd < wrapPosition s.position fileSize
          ∧ wrapPosition s.position fileSize < s.loopStart then
        if s.boomerangMode = true then
          { s with position := s.loopEnd - (wrapPosition s.position
                     fileSize - s.loopEnd),
                   rate := -s.rate }
        else
          { s with position := s.loopStart }
      else
        { s with position := wrapPosition s.position fileSize }
    else
      if wrapPosition s.position fileSize < s.loopEnd
          ∨ s.loopStart < wrapPosition s.position fileSize then
        if s.boomerangMode = true then
          if wrapPosition s.position fileSize < s.loopEnd then
            { s with position := s.loopEnd + (s.loopEnd - wrapPosition
                       s.position fileSize),
                     rate := -s.rate }
          else
            { s with position := s.loopStart - (wrapPosition s.position
                       fileSize - s.loopStart),
                     rate := -s.rate }
        else
          { s with position := s.loopEnd }
      else
        { s with position := wrapPosition s.position fileSize }

/-- One per-sample advance step of the audio loop: the unconditional
position += rate followed by handleLoop, with the buffer length n cast
to double as fileSize. -/
def advanceStep (n : ℕ) (s : PlaybackState) : PlaybackState :=
  handleLoop (n : ℚ) s.rate { s with position := s.position + s.rate }

/-- Embeds the buffer-read index of the burn variant audio loop, which
casts audioPosition to size_t with no clamp: index = (size_t)audioPosition. -/
def audioIndexBurn (pos : ℚ) : ℤ :=
  ratTrunc pos

/-- Embeds the buffer-read index of the main variant audio loop, which
clamps from above: index = (size_t)audioPosition, then if index >= size
it becomes size - 1. -/
def audioIndexMain (n : ℕ) (pos : ℚ) : ℤ :=
  if (n : ℤ) ≤ ratTrunc pos then (n : ℤ) - 1 else ratTrunc pos

/-- The byte the main variant audio loop reads for the current state:
fileData at the clamped index. -/
def byteAt (s : PlaybackState) (data : List ℕ) : ℕ :=
  data.getD (audioIndexMain data.length s.position).toNat 0

/-- Embeds one synthesis step of the main variant jackProcessCallback:
silence when paused, muted or the buffer is empty, otherwise the byte at
the clamped index scaled to [-1, 1) and multiplied by the volume,
duplicated to both stereo channels. -/
def synthesize (s : PlaybackState) (data : List ℕ) : ℚ × ℚ :=
  if s.paused = true ∨ s.muted = true ∨ data = [] then (0, 0)
  else (((byteAt s data : ℚ) - 128) / 128 * s.volume,
        ((byteAt s data : ℚ) - 128) / 128 * s.volume)

/-- Embeds the unclamped frame quotient both variants start from:
(size_t)(wrapPosition(audioPosition, fileSize) / bytesPerFrame).  The
wrapped position is nonnegative, so the size_t cast is plain truncation. -/
def startFrame (n frameBytes : ℕ) (pos : ℚ) : ℕ :=
  (ratTrunc (wrapPosition pos (n : ℚ) / (frameBytes : ℚ))).toNat

/-- Embeds the burn variant renderFrame frame index: the frame quotient
clamped to totalFrames - 1 from above. -/
def frameIndexBurn (n frameBytes totalFrames : ℕ) (pos : ℚ) : ℕ :=
  if totalFrames ≤ startFrame n frameBytes pos then totalFrames - 1
  else startFrame n frameBytes pos

/-- Embeds the burn variant renderFrame byte offset of the displayed
frame: frameOffset = frameIndex * bytesPerFrame. -/
def frameOffsetBurn (n frameBytes totalFrames : ℕ) (pos : ℚ) : ℕ :=
  frameIndexBurn n frameBytes totalFrames pos * frameBytes

/-- Embeds the main variant renderFrame frame index of the tile at grid
cell (r, c): (startFrame + r * columns + c) % totalFrames.  The tile at
(0, 0) is the frame the playback position selects. -/
def tileFrameIndexMain (n frameBytes totalFrames : ℕ) (pos : ℚ)
    (r columns c : ℕ) : ℕ :=
  (startFrame n frameBytes pos + r * columns + c) % totalFrames

/-- Embeds the main variant renderFrame byte offset of the tile at grid
cell (r, c): frameOffset = frameIndex * FRAME_WIDTH * FRAME_HEIGHT. -/
def tileFrameOffsetMain (n frameBytes totalFrames : ℕ) (pos : ℚ)
    (r columns c : ℕ) : ℕ :=
  tileFrameIndexMain n frameBytes totalFrames pos r columns c * frameBytes

/-- The 18-entry fixed rainbow hue table shared by both renderFrame
variants, with the float literals read as exact decimals. -/
def rainbow : List (ℚ × ℚ × ℚ) :=
  [(1, 0, 0), (0, 1, 0), (0, 0, 1),
   (1, 0, 1), (0, 1, 1), (1, 1, 0),
   (1, 3/4, 4/5), (1/2, 1, 0), (0, 3/4, 1),
   (19/25, 7/10, 0), (9/10, 3/10, 0), (29/50, 0, 83/100),
   (29/100, 0, 51/100), (0, 21/50, 1/2), (0, 1, 1/2),
   (21/50, 14/25, 7/50), (1, 13/20, 0), (2/5, 0, 1)]

/-- Embeds the hue selector of the palette: colorIndex = (value / 14) % 18. -/
def colorIndex (v : ℕ) : ℕ :=
  (v / 14) % 18

/-- Embeds the intensity of the palette: ((value % 14) + 1) / 14. -/
def intensity (v : ℕ) : ℚ :=
  ((v % 14 : ℕ) + 1 : ℚ) / 14

/-- Embeds the per-byte palette of renderFrame: each channel of the
selected hue scaled by the intensity. -/
def paletteColor (v : ℕ) : ℚ × ℚ × ℚ :=
  let h := rainbow.getD (colorIndex v) (0, 0, 0)
  (h.1 * intensity v, h.2.1 * intensity v, h.2.2 * intensity v)

/-- Embeds the GLFW_KEY_COMMA branch of keyCallback in both variants:
loopStart is set to the current position only when the loop is disabled. -/
def setLoopStartHere (s : PlaybackState) : PlaybackState :=
  if s.loopEnabled = false then { s with loopStart := s.position } else s

/-- Embeds the GLFW_KEY_PERIOD branch of keyCallback in both variants:
loopEnd is set to the current position only when the loop is disabled. -/
def setLoopEndHere (s : PlaybackState) : PlaybackState :=
  if s.loopEnabled = false then { s with loopEnd := s.position } else s

/-- Example state for the boundary-escape counterexamples: buffer of 100
bytes, loop [50, 99) enabled with boomerang on, position 55, rate -60.
Field order: position, rate, loopEnabled, boomerangMode, loopStart,
loopEnd, paused, muted, volume. -/
def exBoom : PlaybackState :=
  ⟨55, -60, true, true, 50, 99, false, false, 1⟩

/-- Example state for the C1 witness: loop [10, 90) with boomerang on,
position 80, rate 30 (reflecting step staying inside the buffer). -/
def exSafe : PlaybackState :=
  ⟨80, 30, true, true, 10, 90, false, false, 1⟩

/-- Example state for the C3 witness: loop [0, 100) with boomerang on,
position 99.9, rate +1. -/
def exRefl : PlaybackState :=
  ⟨999/10, 1, true, true, 0, 100, false, false, 1⟩

/-- Example state for the C4 witness: loop [0, 100) with boomerang off,
position 99.9, rate +1. -/
def exPin : PlaybackState :=
  ⟨999/10, 1, true, false, 0, 100, false, false, 1⟩

/-- Example state for the C5 witness: degenerate loop [50, 50], position
7, rate 123. -/
def exDeg : PlaybackState :=
  ⟨7, 123, true, false, 50, 50, false, false, 1⟩

/-- Example state for the C7 witness, silent path: paused. -/
def exPaused : PlaybackState :=
  ⟨0, 1, true, false, 0, 0, true, false, 1⟩

/-- Example state for the C7 witness, active path: position 2, volume
1/2, not paused, not muted. -/
def exActive : PlaybackState :=
  ⟨2, 1, true, false, 0, 0, false, false, 1/2⟩

/-- Example state for the C10 witness: loop enabled, position 5. -/
def exLoopOn : PlaybackState :=
  ⟨5, 1, true, false, 2, 3, false, false, 1⟩

/-- Example state for the C10 witness: loop disabled, position 5. -/
def exLoopOff : PlaybackState :=
  ⟨5, 1, false, false, 2, 3, false, false, 1⟩

theorem ratTrunc_le_of_nonneg {q : ℚ} (h : 0 ≤ q) : (ratTrunc q : ℚ) ≤ q := by
  simp only [ratTrunc, if_pos h]
  exact Int.floor_le q

theorem lt_ratTrunc_add_one_of_nonneg {q : ℚ} (h : 0 ≤ q) :
    q < (ratTrunc q : ℚ) + 1 := by
  simp only [ratTrunc, if_pos h]
  exact Int.lt_floor_add_one q

theorem le_ratTrunc_of_neg {q : ℚ} (h : q < 0) : q ≤ (ratTrunc q : ℚ) := by
  simp only [ratTrunc, if_neg (not_le.mpr h)]
  exact Int.le_ceil q

theorem ratTrunc_lt_add_one_of_neg {q : ℚ} (h : q < 0) :
    (ratTrunc q : ℚ) < q + 1 := by
  simp only [ratTrunc, if_neg (not_le.mpr h)]
  exact_mod_cast Int.ceil_lt_add_one q

/-- C fmod of a nonnegative value by a positive modulus lies in [0, N). -/
theorem fmod_mem_of_nonneg {x N : ℚ} (hN : 0 < N) (hx : 0 ≤ x) :
    0 ≤ fmod x N ∧ fmod x N < N := by
  have hq : (0 : ℚ) ≤ x / N := div_nonneg hx hN.le
  have h1 := ratTrunc_le_of_nonneg hq
  have h2 := lt_ratTrunc_add_one_of_nonneg hq
  constructor
  · have := mul_le_mul_of_nonneg_left h1 hN.le
    have hxN : N * (x / N) = x := by field_simp
    simp only [fmod]
    nlinarith
  · have := mul_lt_mul_of_pos_left h2 hN
    have hxN : N * (x / N) = x := by field_simp
    simp only [fmod]
    nlinarith

/-- C fmod of a negative value by a positive modulus lies in (-N, 0]. -/
theorem fmod_mem_of_neg {x N : ℚ} (hN : 0 < N) (hx : x < 0) :
    -N < fmod x N ∧ fmod x N ≤ 0 := by
  have hq : x / N < 0 := div_neg_of_neg_of_pos hx hN
  have h1 := le_ratTrunc_of_neg hq
  have h2 := ratTrunc_lt_add_one_of_neg hq
  have hxN : N * (x / N) = x := by field_simp
  constructor
  · have := mul_lt_mul_of_pos_left h2 hN
    simp only [fmod]
    nlinarith
  · have := mul_le_mul_of_nonneg_left h1 hN.le
    simp only [fmod]
    nlinarith

/-- wrapPosition always lands in [0, N) for a positive file size. -/
theorem wrapPosition_mem {x N : ℚ} (hN : 0 < N) :
    0 ≤ wrapPosition x N ∧ wrapPosition x N < N := by
  unfold wrapPosition
  split_ifs with h1 h2 h3
  · obtain ⟨hlt, hle⟩ := fmod_mem_of_neg hN h1
    constructor <;> linarith
  · obtain ⟨hlt, hle⟩ := fmod_mem_of_neg hN h1
    exact ⟨not_lt.mp h2, by linarith⟩
  · exact fmod_mem_of_nonneg hN (not_lt.mp h1)
  · exact ⟨not_lt.mp h1, not_le.mp h3⟩

theorem ratTrunc_eq_of_nonneg {q : ℚ} {z : ℤ} (h0 : 0 ≤ q) (h1 : (z : ℚ) ≤ q)
    (h2 : q < z + 1) : ratTrunc q = z := by
  simp only [ratTrunc, if_pos h0]
  rw [Int.floor_eq_iff]
  constructor
  · exact_mod_cast h1
  · exact_mod_cast h2

theorem ratTrunc_eq_of_neg {q : ℚ} {z : ℤ} (h0 : q < 0) (h1 : (z : ℚ) - 1 < q)
    (h2 : q ≤ z) : ratTrunc q = z := by
  simp only [ratTrunc, if_neg (not_le.mpr h0)]
  rw [Int.ceil_eq_iff]
  constructor
  · exact_mod_cast h1
  · exact_mod_cast h2

theorem ratTrunc_nonneg {q : ℚ} (h : 0 ≤ q) : 0 ≤ ratTrunc q := by
  simp only [ratTrunc, if_pos h]
  exact Int.floor_nonneg.mpr h

theorem ratTrunc_lt_of_lt_nat {q : ℚ} {n : ℕ} (h0 : 0 ≤ q) (h : q < (n : ℚ)) :
    ratTrunc q < (n : ℤ) := by
  simp only [ratTrunc, if_pos h0]
  exact Int.floor_lt.mpr (by exact_mod_cast h)

theorem handleLoop_off {N advance : ℚ} {s : PlaybackState}
    (h : s.loopEnabled = false) :
    handleLoop N advance s = { s with position := wrapPosition s.position N } := by
  unfold handleLoop
  rw [if_pos h]

theorem handleLoop_degenerate {N advance : ℚ} {s : PlaybackState}
    (h : s.loopEnabled = true) (hd : s.loopStart = s.loopEnd) :
    handleLoop N advance s = { s with position := s.loopStart } := by
  unfold handleLoop
  rw [if_neg (by simp [h]), if_pos hd]

theorem handleLoop_fwd_boom {N advance : ℚ} {s : PlaybackState}
    (h : s.loopEnabled = true) (hlt : s.loopStart < s.loopEnd)
    (ha : 0 < advance) (hp : s.loopEnd < s.position)
    (hb : s.boomerangMode = true) :
    handleLoop N advance s =
      { s with position := s.loopEnd - (s.position - s.loopEnd),
               rate := -s.rate } := by
  unfold handleLoop
  rw [if_neg (by simp [h]), if_neg (ne_of_lt hlt), if_pos hlt, if_pos ha,
    if_pos hp, if_pos hb]

theorem handleLoop_fwd_pin {N advance : ℚ} {s : PlaybackState}
    (h : s.loopEnabled = true) (hlt : s.loopStart < s.loopEnd)
    (ha : 0 < advance) (hp : s.loopEnd < s.position)
    (hb : s.boomerangMode = false) :
    handleLoop N advance s = { s with position := s.loopStart } := by
  unfold handleLoop
  rw [if_neg (by simp [h]), if_neg (ne_of_lt hlt), if_pos hlt, if_pos ha,
    if_pos hp, if_neg (by simp [hb])]

theorem handleLoop_fwd_stay {N advance : ℚ} {s : PlaybackState}
    (h : s.loopEnabled = true) (hlt : s.loopStart < s.loopEnd)
    (ha : 0 < advance) (hp : ¬s.loopEnd < s.position) :
    handleLoop N advance s = s := by
  unfold handleLoop
  rw [if_neg (by simp [h]), if_neg (ne_of_lt hlt), if_pos hlt, if_pos ha,
    if_neg hp]

theorem handleLoop_rev_boom {N advance : ℚ} {s : PlaybackState}
    (h : s.loopEnabled = true) (hlt : s.loopStart < s.loopEnd)
    (ha : ¬0 < advance) (hp : s.position < s.loopStart)
    (hb : s.boomerangMode = true) :
    handleLoop N advance s =
      { s with position := s.loopStart + (s.loopStart - s.position),
               rate := -s.rate } := by
  unfold handleLoop
  rw [if_neg (by simp [h]), if_neg (ne_of_lt hlt), if_pos hlt, if_neg ha,
    if_pos hp, if_pos hb]

theorem handleLoop_rev_pin {N advance : ℚ} {s : PlaybackState}
    (h : s.loopEnabled = true) (hlt : s.loopStart < s.loopEnd)
    (ha : ¬0 < advance) (hp : s.position < s.loopStart)
    (hb : s.boomerangMode = false) :
    handleLoop N advance s = { s with position := s.loopEnd } := by
  unfold handleLoop
  rw [if_neg (by simp [h]), if_neg (ne_of_lt hlt), if_pos hlt, if_neg ha,
    if_pos hp, if_neg (by simp [hb])]

theorem handleLoop_rev_stay {N advance : ℚ} {s : PlaybackState}
    (h : s.loopEnabled = true) (hlt : s.loopStart < s.loopEnd)
    (ha : ¬0 < advance) (hp : ¬s.position < s.loopStart) :
    handleLoop N advance s = s := by
  unfold handleLoop
  rw [if_neg (by simp [h]), if_neg (ne_of_lt hlt), if_pos hlt, if_neg ha,
    if_neg hp]

theorem handleLoop_wrapped_fwd {N advance : ℚ} {s : PlaybackState}
    (h : s.loopEnabled = true) (hgt : s.loopEnd < s.loopStart)
    (ha : 0 < advance) (hb : s.boomerangMode = false) :
    handleLoop N advance s =
      if s.loopEnd < wrapPosition s.position N
          ∧ wrapPosition s.position N < s.loopStart then
        { s with position := s.loopStart }
      else
        { s with position := wrapPosition s.position N } := by
  unfold handleLoop
  rw [if_neg (by simp [h]), if_neg (ne_of_gt hgt), if_neg (not_lt.mpr hgt.le),
    if_pos ha]
  by_cases hc : s.loopEnd < wrapPosition s.position N
      ∧ wrapPosition s.position N < s.loopStart
  · rw [if_pos hc, if_pos hc, if_neg (by simp [hb])]
  · rw [if_neg hc, if_neg hc]

theorem handleLoop_wrapped_rev {N advance : ℚ} {s : PlaybackState}
    (h : s.loopEnabled = true) (hgt : s.loopEnd < s.loopStart)
    (ha : ¬0 < advance) (hb : s.boomerangMode = false) :
    handleLoop N advance s =
      if wrapPosition s.position N < s.loopEnd
          ∨ s.loopStart < wrapPosition s.position N then
        { s with position := s.loopEnd }
      else
        { s with position := wrapPosition s.position N } := by
  unfold handleLoop
  rw [if_neg (by simp [h]), if_neg (ne_of_gt hgt), if_neg (not_lt.mpr hgt.le),
    if_neg ha]
  by_cases hc : wrapPosition s.position N < s.loopEnd
      ∨ s.loopStart < wrapPosition s.position N
  · rw [if_pos hc, if_pos hc, if_neg (by simp [hb])]
  · rw [if_neg hc, if_neg hc]

/-- Central range lemma: one advance step keeps the resolved position in
[0, N) when the loop is disabled, or degenerate, or boomerang is off and
the starting position is in range, or boomerang is on over a non-wrapped
region with the starting position inside it and a step no larger than
the region. -/
theorem advanceStep_position_mem (n : ℕ) (s : PlaybackState)
    (hn : 0 < (n : ℚ))
    (hS0 : 0 ≤ s.loopStart) (hSn : s.loopStart < (n : ℚ))
    (hE0 : 0 ≤ s.loopEnd) (hEn : s.loopEnd < (n : ℚ))
    (hcase : s.loopEnabled = false
      ∨ s.loopStart = s.loopEnd
      ∨ (s.boomerangMode = false ∧ 0 ≤ s.position ∧ s.position < (n : ℚ))
      ∨ (s.boomerangMode = true ∧ s.loopStart < s.loopEnd
          ∧ s.loopStart ≤ s.position ∧ s.position ≤ s.loopEnd
          ∧ -(s.loopEnd - s.loopStart) ≤ s.rate
          ∧ s.rate ≤ s.loopEnd - s.loopStart)) :
    0 ≤ (advanceStep n s).position ∧ (advanceStep n s).position < (n : ℚ) := by
  set t : PlaybackState := { s with position := s.position + s.rate } with ht
  have htS : t.loopStart = s.loopStart := rfl
  have htE : t.loopEnd = s.loopEnd := rfl
  have htp : t.position = s.position + s.rate := rfl
  show 0 ≤ (handleLoop (n : ℚ) s.rate t).position
      ∧ (handleLoop (n : ℚ) s.rate t).position < (n : ℚ)
  by_cases hen : t.loopEnabled = false
  · rw [handleLoop_off hen]
    exact wrapPosition_mem hn
  · have hen2 : t.loopEnabled = true := by
      revert hen
      cases t.loopEnabled <;> simp
    rcases hcase with hoff | hdeg | ⟨hb, hp0, hpn⟩ | ⟨hb, hlt, hpS, hpE, hr1, hr2⟩
    · exact absurd hoff hen
    · rw [handleLoop_degenerate hen2 hdeg]
      exact ⟨hS0, hSn⟩
    · by_cases hdeg : t.loopStart = t.loopEnd
      · rw [handleLoop_degenerate hen2 hdeg]
        exact ⟨hS0, hSn⟩
      · rcases lt_or_gt_of_ne hdeg with hlt | hgt
        · by_cases ha : 0 < s.rate
          · by_cases hp : t.loopEnd < t.position
            · rw [handleLoop_fwd_pin hen2 hlt ha hp hb]
              exact ⟨hS0, hSn⟩
            · rw [handleLoop_fwd_stay hen2 hlt ha hp]
              rw [htp] at hp ⊢
              rw [htE] at hp
              constructor <;> linarith
          · by_cases hp : t.position < t.loopStart
            · rw [handleLoop_rev_pin hen2 hlt ha hp hb]
              exact ⟨hE0, hEn⟩
            · rw [handleLoop_rev_stay hen2 hlt ha hp]
              rw [htp] at hp ⊢
              rw [htS] at hp
              have har : s.rate ≤ 0 := not_lt.mp ha
              constructor <;> linarith
        · by_cases ha : 0 < s.rate
          · rw [handleLoop_wrapped_fwd hen2 hgt ha hb]
            split_ifs with hc
            · exact ⟨hS0, hSn⟩
            · exact wrapPosition_mem hn
          · rw [handleLoop_wrapped_rev hen2 hgt ha hb]
            split_ifs with hc
            · exact ⟨hE0, hEn⟩
            · exact wrapPosition_mem hn
    · by_cases ha : 0 < s.rate
      · by_cases hp : t.loopEnd < t.position
        · rw [handleLoop_fwd_boom hen2 hlt ha hp hb]
          rw [htp, htE] at hp
          constructor
          · show 0 ≤ s.loopEnd - (s.position + s.rate - s.loopEnd)
            linarith
          · show s.loopEnd - (s.position + s.rate - s.loopEnd) < (n : ℚ)
            linarith
        · rw [handleLoop_fwd_stay hen2 hlt ha hp]
          rw [htp] at hp ⊢
          rw [htE] at hp
          constructor <;> linarith
      · by_cases hp : t.position < t.loopStart
        · rw [handleLoop_rev_boom hen2 hlt ha hp hb]
          rw [htp, htS] at hp
          constructor
          · show 0 ≤ s.loopStart + (s.loopStart - (s.position + s.rate))
            linarith
          · show s.loopStart + (s.loopStart - (s.position + s.rate)) < (n : ℚ)
            linarith
        · rw [handleLoop_rev_stay hen2 hlt ha hp]
          rw [htp] at hp ⊢
          rw [htS] at hp
          have har : s.rate ≤ 0 := not_lt.mp ha
          constructor <;> linarith

theorem advanceStep_degenerate {n : ℕ} {s : PlaybackState}
    (hen : s.loopEnabled = true) (hd : s.loopStart = s.loopEnd) :
    advanceStep n s = { s with position := s.loopStart } :=
  @handleLoop_degenerate (n : ℚ) s.rate
    { s with position := s.position + s.rate } hen hd

theorem advanceStep_fwd_boom {n : ℕ} {s : PlaybackState}
    (hen : s.loopEnabled = true) (hlt : s.loopStart < s.loopEnd)
    (hr : 0 < s.rate) (hp : s.loopEnd < s.position + s.rate)
    (hb : s.boomerangMode = true) :
    advanceStep n s =
      { s with position := s.loopEnd - (s.position + s.rate - s.loopEnd),
               rate := -s.rate } :=
  @handleLoop_fwd_boom (n : ℚ) s.rate
    { s with position := s.position + s.rate } hen hlt hr hp hb

theorem advanceStep_fwd_pin {n : ℕ} {s : PlaybackState}
    (hen : s.loopEnabled = true) (hlt : s.loopStart < s.loopEnd)
    (hr : 0 < s.rate) (hp : s.loopEnd < s.position + s.rate)
    (hb : s.boomerangMode = false) :
    advanceStep n s = { s with position := s.loopStart } :=
  @handleLoop_fwd_pin (n : ℚ) s.rate
    { s with position := s.position + s.rate } hen hlt hr hp hb

theorem advanceStep_rev_boom {n : ℕ} {s : PlaybackState}
    (hen : s.loopEnabled = true) (hlt : s.loopStart < s.loopEnd)
    (hr : ¬0 < s.rate) (hp : s.position + s.rate < s.loopStart)
    (hb : s.boomerangMode = true) :
    advanceStep n s =
      { s with position := s.loopStart + (s.loopStart - (s.position + s.rate)),
               rate := -s.rate } :=
  @handleLoop_rev_boom (n : ℚ) s.rate
    { s with position := s.position + s.rate } hen hlt hr hp hb

theorem advanceStep_rev_pin {n : ℕ} {s : PlaybackState}
    (hen : s.loopEnabled = true) (hlt : s.loopStart < s.loopEnd)
    (hr : ¬0 < s.rate) (hp : s.position + s.rate < s.loopStart)
    (hb : s.boomerangMode = false) :
    advanceStep n s = { s with position := s.loopEnd } :=
  @handleLoop_rev_pin (n : ℚ) s.rate
    { s with position := s.position + s.rate } hen hlt hr hp hb

/-- C3: in a non-wrapped loop region with boomerang on, a forward
boundary exit reflects the post-increment position about loopEnd and
negates the sign of the rate. -/
theorem c3_forward_boomerang_reflection (n : ℕ) (s : PlaybackState)
    (hen : s.loopEnabled = true) (hb : s.boomerangMode = true)
    (hlt : s.loopStart < s.loopEnd) (hr : 0 < s.rate)
    (hp : s.loopEnd < s.position + s.rate) :
    (advanceStep n s).position = s.loopEnd - (s.position + s.rate - s.loopEnd)
    ∧ (advanceStep n s).rate = -s.rate := by
  rw [advanceStep_fwd_boom hen hlt hr hp hb]
  exact ⟨rfl, rfl⟩

/-- Witness for C3: with loop [0, 100) and boomerang on, advancing from
99.9 by +1.0 yields position 99.1 and the rate flips to -1. -/
theorem c3_forward_boomerang_reflection_witness :
    (advanceStep 100 exRefl).position = 991/10
    ∧ (advanceStep 100 exRefl).rate = -1 := by
  obtain ⟨h1, h2⟩ := c3_forward_boomerang_reflection 100 exRefl
    rfl rfl (by norm_num [exRefl]) (by norm_num [exRefl]) (by norm_num [exRefl])
  refine ⟨?_, h2⟩
  rw [h1]
  norm_num [exRefl]

/-- C4: in a non-wrapped loop region with loop enabled and boomerang
off, a forward exit pins the position to loopStart and a backward exit
pins it to loopEnd, leaving the rate unchanged in both cases. -/
theorem c4_pin_on_exit (n : ℕ) (s : PlaybackState)
    (hen : s.loopEnabled = true) (hb : s.boomerangMode = false)
    (hlt : s.loopStart < s.loopEnd) :
    (0 < s.rate → s.loopEnd < s.position + s.rate →
      (advanceStep n s).position = s.loopStart
      ∧ (advanceStep n s).rate = s.rate)
    ∧ (s.rate < 0 → s.position + s.rate < s.loopStart →
      (advanceStep n s).position = s.loopEnd
      ∧ (advanceStep n s).rate = s.rate) := by
  constructor
  · intro hr hp
    rw [advanceStep_fwd_pin hen hlt hr hp hb]
    exact ⟨rfl, rfl⟩
  · intro hr hp
    rw [advanceStep_rev_pin hen hlt (not_lt.mpr hr.le) hp hb]
    exact ⟨rfl, rfl⟩

/-- Witness for C4: with loop [0, 100), boomerang off, advancing from
99.9 by +1.0 yields position 0.0 exactly and an unchanged rate. -/
theorem c4_pin_on_exit_witness :
    (advanceStep 100 exPin).position = 0
    ∧ (advanceStep 100 exPin).rate = 1 := by
  obtain ⟨h1, h2⟩ := (c4_pin_on_exit 100 exPin rfl rfl
    (by norm_num [exPin])).1 (by norm_num [exPin]) (by norm_num [exPin])
  exact ⟨h1, h2⟩

/-- C5: when the loop is enabled and loopStart equals loopEnd, one
advance step from any position at any rate pins the position to
loopStart. -/
theorem c5_degenerate_pin (n : ℕ) (s : PlaybackState)
    (hen : s.loopEnabled = true) (hd : s.loopStart = s.loopEnd) :
    (advanceStep n s).position = s.loopStart := by
  rw [advanceStep_degenerate hen hd]

/-- Witness for C5: with loopStart = loopEnd = 50, advancing from 7 at
rate 123 yields position 50. -/
theorem c5_degenerate_pin_witness :
    (advanceStep 100 exDeg).position = 50 :=
  c5_degenerate_pin 100 exDeg rfl rfl

/-- C1 (corrected): the claim fails as stated; an unguarded boomerang
reflection can carry the resolved position outside [0, N).  With a
100-byte buffer, loop [50, 99) enabled, boomerang on, position 55 and
rate -60 (all of which satisfy the claim's preconditions), one advance
step resolves the position to 105, outside [0, 100). -/
theorem c1_counterexample :
    (0 ≤ exBoom.loopStart ∧ exBoom.loopStart < 100
      ∧ 0 ≤ exBoom.loopEnd ∧ exBoom.loopEnd < 100
      ∧ 0 ≤ exBoom.position ∧ exBoom.position < 100)
    ∧ (advanceStep 100 exBoom).position = 105
    ∧ ¬(advanceStep 100 exBoom).position < 100 := by
  have hstep : advanceStep 100 exBoom =
      { exBoom with position := exBoom.loopStart + (exBoom.loopStart -
          (exBoom.position + exBoom.rate)), rate := -exBoom.rate } :=
    advanceStep_rev_boom rfl (by norm_num [exBoom]) (by norm_num [exBoom])
      (by norm_num [exBoom]) rfl
  rw [hstep]
  norm_num [exBoom]

/-- C1 (amended): one advance step keeps the resolved position in
[0, N) whenever the loop is disabled, or the loop is degenerate, or
boomerang is off and the starting position is in [0, N), or boomerang is
on over a non-wrapped region with the starting position inside
[loopStart, loopEnd] and a rate magnitude at most loopEnd - loopStart. -/
theorem c1_position_in_range (n : ℕ) (s : PlaybackState)
    (hn : 0 < (n : ℚ))
    (hS0 : 0 ≤ s.loopStart) (hSn : s.loopStart < (n : ℚ))
    (hE0 : 0 ≤ s.loopEnd) (hEn : s.loopEnd < (n : ℚ))
    (hcase : s.loopEnabled = false
      ∨ s.loopStart = s.loopEnd
      ∨ (s.boomerangMode = false ∧ 0 ≤ s.position ∧ s.position < (n : ℚ))
      ∨ (s.boomerangMode = true ∧ s.loopStart < s.loopEnd
          ∧ s.loopStart ≤ s.position ∧ s.position ≤ s.loopEnd
          ∧ -(s.loopEnd - s.loopStart) ≤ s.rate
          ∧ s.rate ≤ s.loopEnd - s.loopStart)) :
    0 ≤ (advanceStep n s).position ∧ (advanceStep n s).position < (n : ℚ) :=
  advanceStep_position_mem n s hn hS0 hSn hE0 hEn hcase

/-- Witness for C1 (amended): a reflecting boomerang step with loop
[10, 90), position 80 and rate 30 stays inside [0, 100). -/
theorem c1_position_in_range_witness :
    0 ≤ (advanceStep 100 exSafe).position
    ∧ (advanceStep 100 exSafe).position < ((100 : ℕ) : ℚ) :=
  c1_position_in_range 100 exSafe (by norm_num) (by norm_num [exSafe])
    (by norm_num [exSafe]) (by norm_num [exSafe]) (by norm_num [exSafe])
    (Or.inr (Or.inr (Or.inr ⟨rfl, by norm_num [exSafe], by norm_num [exSafe],
      by norm_num [exSafe], by norm_num [exSafe], by norm_num [exSafe]⟩)))

/-- C2 (code bug): the burn variant audio loop reads the buffer with no
index clamp, so the same reflection escape makes it read index 105 of a
100-byte buffer, outside [0, 99]: an out-of-bounds read. -/
theorem c2_burn_read_out_of_bounds :
    audioIndexBurn (advanceStep 100 exBoom).position = 105
    ∧ ¬audioIndexBurn (advanceStep 100 exBoom).position ≤ 99 := by
  have hstep : advanceStep 100 exBoom =
      { exBoom with position := exBoom.loopStart + (exBoom.loopStart -
          (exBoom.position + exBoom.rate)), rate := -exBoom.rate } :=
    advanceStep_rev_boom rfl (by norm_num [exBoom]) (by norm_num [exBoom])
      (by norm_num [exBoom]) rfl
  have hpos : (advanceStep 100 exBoom).position = 105 := by
    rw [hstep]
    norm_num [exBoom]
  have htr : ratTrunc (105 : ℚ) = 105 :=
    @ratTrunc_eq_of_nonneg 105 105 (by norm_num) (by norm_num) (by norm_num)
  rw [hpos]
  unfold audioIndexBurn
  rw [htr]
  norm_num

/-- C6: wrapPosition maps every input into [0, N) for every positive N,
and wrap(9.5, 10) = 9.5, wrap(10, 10) = 0, wrap(-0.5, 10) = 9.5. -/
theorem c6_wrap_into_range (x N : ℚ) (hN : 0 < N) :
    (0 ≤ wrapPosition x N ∧ wrapPosition x N < N)
    ∧ wrapPosition (19/2) 10 = 19/2
    ∧ wrapPosition 10 10 = 0
    ∧ wrapPosition (-1/2) 10 = 19/2 := by
  refine ⟨wrapPosition_mem hN, ?_, ?_, ?_⟩
  · simp only [wrapPosition]
    norm_num
  · have h : ratTrunc ((10 : ℚ) / 10) = 1 :=
      @ratTrunc_eq_of_nonneg (10/10) 1 (by norm_num) (by norm_num) (by norm_num)
    simp only [wrapPosition, fmod, h]
    norm_num
  · have h : ratTrunc (-1/2 / 10) = 0 :=
      @ratTrunc_eq_of_neg (-1/2/10) 0 (by norm_num) (by norm_num) (by norm_num)
    simp only [wrapPosition, fmod, h]
    norm_num

/-- Witness for C6: evaluated at x = 5, N = 10. -/
theorem c6_wrap_into_range_witness :
    0 ≤ wrapPosition 5 10 ∧ wrapPosition 5 10 < 10 :=
  (c6_wrap_into_range 5 10 (by norm_num)).1

/-- C7: one synthesis step is silent when paused, muted or the buffer is
empty, and otherwise emits ((byte - 128) / 128) * volume on both
channels, so byte 128 gives 0, byte 0 gives -volume, and byte 255 gives
(127/128) * volume. -/
theorem c7_synthesize_amplitude (s : PlaybackState) (data : List ℕ) :
    ((s.paused = true ∨ s.muted = true ∨ data = []) →
      synthesize s data = (0, 0))
    ∧ (s.paused = false → s.muted = false → data ≠ [] →
        (synthesize s data = (((byteAt s data : ℚ) - 128) / 128 * s.volume,
            ((byteAt s data : ℚ) - 128) / 128 * s.volume)
          ∧ (byteAt s data = 128 → synthesize s data = (0, 0))
          ∧ (byteAt s data = 0 →
              synthesize s data = (-1 * s.volume, -1 * s.volume))
          ∧ (byteAt s data = 255 →
              synthesize s data = (127/128 * s.volume, 127/128 * s.volume)))) := by
  constructor
  · intro h
    unfold synthesize
    rw [if_pos h]
  · intro h1 h2 h3
    have hno : ¬(s.paused = true ∨ s.muted = true ∨ data = []) := by
      simp [h1, h2, h3]
    have he : synthesize s data =
        (((byteAt s data : ℚ) - 128) / 128 * s.volume,
         ((byteAt s data : ℚ) - 128) / 128 * s.volume) := by
      unfold synthesize
      rw [if_neg hno]
    refine ⟨he, ?_, ?_, ?_⟩
    · intro hb
      rw [he, hb]
      norm_num
    · intro hb
      rw [he, hb]
      norm_num
    · intro hb
      rw [he, hb]
      norm_num

/-- Witness for C7: a paused state is silent, and an active state with
volume 1/2 reading byte 255 emits 127/256 on both channels. -/
theorem c7_synthesize_amplitude_witness :
    synthesize exPaused [7] = (0, 0)
    ∧ synthesize exActive [0, 128, 255] = (127/256, 127/256) := by
  have h1 : synthesize exPaused [7] = (0, 0) :=
    (c7_synthesize_amplitude exPaused [7]).1 (Or.inl rfl)
  have htr : ratTrunc (2 : ℚ) = 2 :=
    @ratTrunc_eq_of_nonneg 2 2 (by norm_num) (by norm_num) (by norm_num)
  have hbyte : byteAt exActive [0, 128, 255] = 255 := by
    simp [byteAt, audioIndexMain, exActive, htr]
  obtain ⟨he, h128, h0, h255⟩ :=
    (c7_synthesize_amplitude exActive [0, 128, 255]).2 rfl rfl (by simp)
  refine ⟨h1, ?_⟩
  rw [h255 hbyte]
  norm_num [exActive]

/-- C8 (corrected): the claim fails for the main variant renderFrame,
which reduces the frame index modulo totalFrames instead of clamping.
With N = 10, frameByteSize = 3, totalFrames = 3 and position 9.5, the
wrapped quotient is 3 >= totalFrames, but the tile at grid cell (0, 0)
displays frame 0, not totalFrames - 1 = 2, and its byte offset is 0. -/
theorem c8_counterexample :
    startFrame 10 3 (19/2) = 3
    ∧ tileFrameIndexMain 10 3 3 (19/2) 0 5 0 = 0
    ∧ tileFrameOffsetMain 10 3 3 (19/2) 0 5 0 = 0
    ∧ frameIndexBurn 10 3 3 (19/2) = 2
    ∧ (0 : ℕ) ≠ 2 := by
  have hw : wrapPosition (19/2) 10 = 19/2 := by
    simp only [wrapPosition]
    norm_num
  have htr : ratTrunc ((19 : ℚ)/6) = 3 :=
    @ratTrunc_eq_of_nonneg (19/6) 3 (by norm_num) (by norm_num) (by norm_num)
  have hsf : startFrame 10 3 (19/2) = 3 := by
    norm_num [startFrame, hw]
    rw [htr]
    rfl
  refine ⟨hsf, ?_, ?_, ?_, by norm_num⟩
  · simp [tileFrameIndexMain, hsf]
  · simp [tileFrameOffsetMain, tileFrameIndexMain, hsf]
  · simp [frameIndexBurn, hsf]

/-- C8 (amended): both variants compute the frame quotient
floor(wrap(position, N) / frameByteSize); the burn variant clamps it to
totalFrames - 1 and multiplies by frameByteSize for the byte offset,
while the main variant reduces the tile index modulo totalFrames. -/
theorem c8_frame_index (n frameBytes totalFrames : ℕ) (pos : ℚ)
    (r columns c : ℕ) (hn : 0 < n) (hf : 0 < frameBytes)
    (ht : 1 ≤ totalFrames) :
    ((startFrame n frameBytes pos : ℤ)
        = ⌊wrapPosition pos (n : ℚ) / (frameBytes : ℚ)⌋)
    ∧ frameIndexBurn n frameBytes totalFrames pos
        = min (startFrame n frameBytes pos) (totalFrames - 1)
    ∧ frameOffsetBurn n frameBytes totalFrames pos
        = frameIndexBurn n frameBytes totalFrames pos * frameBytes
    ∧ frameIndexBurn n frameBytes totalFrames pos < totalFrames
    ∧ tileFrameIndexMain n frameBytes totalFrames pos r columns c
        = (startFrame n frameBytes pos + r * columns + c) % totalFrames
    ∧ tileFrameIndexMain n frameBytes totalFrames pos r columns c
        < totalFrames := by
  have hnq : 0 < (n : ℚ) := by exact_mod_cast hn
  have hw := wrapPosition_mem (x := pos) hnq
  have hq : 0 ≤ wrapPosition pos (n : ℚ) / (frameBytes : ℚ) :=
    div_nonneg hw.1 (by positivity)
  refine ⟨?_, ?_, rfl, ?_, rfl, Nat.mod_lt _ (by omega)⟩
  · simp only [startFrame, ratTrunc, if_pos hq]
    exact Int.toNat_of_nonneg (Int.floor_nonneg.mpr hq)
  · unfold frameIndexBurn
    by_cases hc : totalFrames ≤ startFrame n frameBytes pos
    · rw [if_pos hc]
      exact (min_eq_right (by omega)).symm
    · rw [if_neg hc]
      exact (min_eq_left (by omega)).symm
  · unfold frameIndexBurn
    by_cases hc : totalFrames ≤ startFrame n frameBytes pos
    · rw [if_pos hc]
      omega
    · rw [if_neg hc]
      omega

/-- Witness for C8 (amended): evaluated at n = 10, frameByteSize = 3,
totalFrames = 3, position 9.5 and the tile at grid cell (0, 1) with 5
columns. -/
theorem c8_frame_index_witness :
    frameIndexBurn 10 3 3 (19/2) = min (startFrame 10 3 (19/2)) (3 - 1)
    ∧ frameIndexBurn 10 3 3 (19/2) < 3
    ∧ tileFrameIndexMain 10 3 3 (19/2) 0 5 1 < 3 := by
  obtain ⟨hfl, hmin, hoff, hlt, htile, htlt⟩ :=
    c8_frame_index 10 3 3 (19/2) 0 5 1 (by norm_num) (by norm_num) (by norm_num)
  exact ⟨hmin, hlt, htlt⟩

/-- C9: the palette is a pure map from a byte value: colorIndex is
(value / 14) mod 18 into the 18-entry hue table, intensity is
((value mod 14) + 1) / 14, each channel is hue times intensity; byte 0
gives colorIndex 0 with intensity 1/14, byte 13 gives colorIndex 0 with
intensity 1, byte 14 gives colorIndex 1 with intensity 1/14. -/
theorem c9_palette_map (v : Fin 256) :
    paletteColor (v : ℕ)
      = ((rainbow.getD (colorIndex (v : ℕ)) (0, 0, 0)).1 * intensity (v : ℕ),
         (rainbow.getD (colorIndex (v : ℕ)) (0, 0, 0)).2.1 * intensity (v : ℕ),
         (rainbow.getD (colorIndex (v : ℕ)) (0, 0, 0)).2.2 * intensity (v : ℕ))
    ∧ colorIndex (v : ℕ) = ((v : ℕ) / 14) % 18
    ∧ intensity (v : ℕ) = (((v : ℕ) % 14 + 1 : ℕ) : ℚ) / 14
    ∧ colorIndex (v : ℕ) < 18
    ∧ colorIndex 0 = 0 ∧ intensity 0 = 1/14
    ∧ colorIndex 13 = 0 ∧ intensity 13 = 1
    ∧ colorIndex 14 = 1 ∧ intensity 14 = 1/14
    ∧ paletteColor 0 = (1/14, 0, 0)
    ∧ paletteColor 13 = (1, 0, 0)
    ∧ paletteColor 14 = (0, 1/14, 0) := by
  refine ⟨rfl, rfl, ?_, Nat.mod_lt _ (by norm_num), ?_, ?_, ?_, ?_, ?_, ?_,
    ?_, ?_, ?_⟩
  · simp [intensity]
  all_goals norm_num [colorIndex, intensity, paletteColor, rainbow]

/-- C10: the set-loop-start and set-loop-end commands mutate their loop
bound to the current position only when the loop is disabled; when the
loop is enabled they leave the whole state unchanged. -/
theorem c10_set_loop_points (s : PlaybackState) :
    (s.loopEnabled = true →
      setLoopStartHere s = s ∧ setLoopEndHere s = s)
    ∧ (s.loopEnabled = false →
      setLoopStartHere s = { s with loopStart := s.position }
      ∧ setLoopEndHere s = { s with loopEnd := s.position }) := by
  refine ⟨fun h => ⟨?_, ?_⟩, fun h => ⟨?_, ?_⟩⟩
  · unfold setLoopStartHere
    rw [if_neg (by simp [h])]
  · unfold setLoopEndHere
    rw [if_neg (by simp [h])]
  · unfold setLoopStartHere
    rw [if_pos h]
  · unfold setLoopEndHere
    rw [if_pos h]

/-- Witness for C10: with the loop enabled both commands are identities;
with the loop disabled they copy the position into the loop bounds. -/
theorem c10_set_loop_points_witness :
    setLoopStartHere exLoopOn = exLoopOn
    ∧ setLoopEndHere exLoopOn = exLoopOn
    ∧ (setLoopStartHere exLoopOff).loopStart = 5
    ∧ (setLoopEndHere exLoopOff).loopEnd = 5 := by
  obtain ⟨h1, h2⟩ := (c10_set_loop_points exLoopOn).1 rfl
  obtain ⟨h3, h4⟩ := (c10_set_loop_points exLoopOff).2 rfl
  refine ⟨h1, h2, ?_, ?_⟩
  · rw [h3]
    rfl
  · rw [h4]
    rfl

end OBWF
